import Mathlib

/-!
# Verification of the exercise-analysis core

Shallow embedding of the exercise-analysis components of the repository
(`services/exercise/src/exercise/`): the rep counter (`rep_counter.py`),
the keypoint geometry (`keypoint_utils.py`), the heuristic classifier
(`classifier.py`), the form analyzer (`form_analyzer.py`) and the exercise
registry (`exercise_registry.py`).

Python floats are modelled as exact rationals where the relevant code is
pure threshold arithmetic (the rep counter), and as real numbers where the
code computes square roots and inverse cosines (the keypoint geometry, the
form analyzer and the classifier).  The monotonic clock (`time.monotonic`)
is modelled as an explicit time argument; a Python call that reads the
clock more than once is modelled as happening at a single instant.
`uuid.uuid4()` is modelled as a fresh-id counter: each freshly created
per-track state receives an id never handed out before.
-/

/-! ## Rep counter (`rep_counter.py`), over exact rationals -/

/-- `Phase` from `rep_counter.py`. -/
inductive Phase
  | unknown
  | up
  | down
deriving DecidableEq

/-- `Phase(str, Enum).value`. -/
def Phase.value : Phase → String
  | .unknown => "unknown"
  | .up => "up"
  | .down => "down"

/-- `_ANGLE_HISTORY = 7`: frames of history for the median filter. -/
def ANGLE_HISTORY : Nat := 7

/-- `_PHASE_LOCK = 3`: frames an angle must stay in a zone before a phase change. -/
def PHASE_LOCK : Nat := 3

/-- `smooth_signal(values, window=5)` from `keypoint_utils.py`: the median of
the last `window` values of the deque (oldest first); `0.0` on an empty list. -/
def smoothSignal (values : List ℚ) (window : Nat := 5) : ℚ :=
  let recent := values.drop (values.length - window)
  if recent.isEmpty then 0
  else
    let sortedVals := recent.insertionSort (· ≤ ·)
    let mid := sortedVals.length / 2
    if sortedVals.length % 2 = 0 then
      (sortedVals.getD (mid - 1) 0 + sortedVals.getD mid 0) / 2
    else
      sortedVals.getD mid 0

/-- `TrackState` from `rep_counter.py`.  `set_id` models `uuid.uuid4()` as a
natural number drawn from the counter's fresh-id supply; `angle_history` is
the `deque(maxlen=7)`, oldest first; `last_seen_at` is the monotonic-clock
reading in seconds. -/
structure TrackState where
  exercise_type : String
  set_id : Nat
  rep_count : Nat
  phase : Phase
  angle_history : List ℚ
  phase_frame_count : Nat
  last_seen_at : ℚ
deriving DecidableEq

/-- `FormCheck` from `exercise_registry.py`, parameterized by the number type
used for the angle bounds. -/
structure FormCheck (α : Type) where
  name : String
  joint : Nat × Nat × Nat
  min_angle : α
  max_angle : α
  alert_key : String
  alert_message : String
  severity : String
deriving DecidableEq

/-- `ExerciseDefinition` from `exercise_registry.py`, parameterized by the
number type used for angles. -/
structure ExerciseDefinition (α : Type) where
  name : String
  primary_joint : Nat × Nat × Nat
  up_angle : α
  down_angle : α
  form_checks : List (FormCheck α)
deriving DecidableEq

/-- A fresh `TrackState(exercise_type=...)`: all dataclass defaults, with the
modelled `uuid.uuid4()` drawing `set_id` from the fresh-id supply and
`last_seen_at = time.monotonic()` being the current instant. -/
def freshTrackState (exercise_type : String) (set_id : Nat) (now : ℚ) : TrackState :=
  { exercise_type := exercise_type
    set_id := set_id
    rep_count := 0
    phase := Phase.unknown
    angle_history := []
    phase_frame_count := 0
    last_seen_at := now }

/-- `deque(maxlen=_ANGLE_HISTORY).append`: push right, dropping from the left
once the length exceeds 7. -/
def pushAngle (hist : List ℚ) (a : ℚ) : List ℚ :=
  let h := hist ++ [a]
  h.drop (h.length - ANGLE_HISTORY)

/-- `RepCountedEvent` from `gym_shared/events/schemas.py` (fields as emitted by
`RepCounter.update`; `camera_id` is left `""` for the caller, and `track_id`
is omitted because the counter is modelled per track). -/
structure RepCountedEvent where
  camera_id : String
  exercise_set_id : Nat
  exercise_type : String
  rep_number : Nat
  rep_count : Nat
  duration_ms : Nat
  phase : String
  timestamp_ns : Int
deriving DecidableEq

/-- The rep counter's state for one fixed track: the `_tracks` entry for that
track id (if any) together with `next_set_id`, the supply modelling
`uuid.uuid4()` (ids `< next_set_id` may have been handed out already). -/
structure RepCounterTrack where
  state? : Option TrackState
  next_set_id : Nat
deriving DecidableEq

/-- A fresh `RepCounter`: `self._tracks = {}`. -/
def RepCounterTrack.init : RepCounterTrack :=
  { state? := none, next_set_id := 0 }

/-- `RepCounter._get_or_create`, restricted to one track: returns the (possibly
fresh) state together with the updated fresh-id supply. -/
def getOrCreate (exName : String) (timeout : ℚ) (rc : RepCounterTrack) (now : ℚ) :
    TrackState × Nat :=
  match rc.state? with
  | some st =>
      if now - st.last_seen_at > timeout then
        (freshTrackState exName rc.next_set_id now, rc.next_set_id + 1)
      else
        (st, rc.next_set_id)
  | none => (freshTrackState exName rc.next_set_id now, rc.next_set_id + 1)

/-- The body of `RepCounter.update` after the `angle is None` test: push the
angle, smooth, classify the candidate phase, debounce, transition, count.
Pure in the clock (the Python code does not read it here). -/
def applyAngle (d : ExerciseDefinition ℚ) (st : TrackState) (a : ℚ) (timestamp_ns : Int) :
    TrackState × Option RepCountedEvent :=
  let hist := pushAngle st.angle_history a
  let smoothed := smoothSignal hist
  let in_up : Bool := if d.up_angle > d.down_angle then smoothed ≥ d.up_angle
                      else smoothed ≤ d.up_angle
  let in_down : Bool := if d.up_angle > d.down_angle then smoothed ≤ d.down_angle
                        else smoothed ≥ d.down_angle
  let candidate : Option Phase :=
    if in_up then some Phase.up else if in_down then some Phase.down else none
  match candidate with
  | none => ({ st with angle_history := hist, phase_frame_count := 0 }, none)
  | some cand =>
      if cand = st.phase then
        ({ st with angle_history := hist, phase_frame_count := 0 }, none)
      else
        let pfc := st.phase_frame_count + 1
        if pfc < PHASE_LOCK then
          ({ st with angle_history := hist, phase_frame_count := pfc }, none)
        else
          let prev := st.phase
          let st2 := { st with angle_history := hist, phase := cand, phase_frame_count := 0 }
          if prev = Phase.down ∧ cand = Phase.up then
            let rep := st.rep_count + 1
            ({ st2 with rep_count := rep },
             some { camera_id := ""
                    exercise_set_id := st.set_id
                    exercise_type := d.name
                    rep_number := rep
                    rep_count := rep
                    duration_ms := 0
                    phase := cand.value
                    timestamp_ns := timestamp_ns })
          else
            (st2, none)

/-- `RepCounter.update` for one track.  `now` is the monotonic-clock reading
(the code reads the clock twice during one call; both reads are modelled as
the same instant). -/
def RepCounter.update (d : ExerciseDefinition ℚ) (timeout : ℚ) (rc : RepCounterTrack)
    (now : ℚ) (angle : Option ℚ) (timestamp_ns : Int) :
    RepCounterTrack × Option RepCountedEvent :=
  let stn := getOrCreate d.name timeout rc now
  let st := { stn.1 with last_seen_at := now }
  match angle with
  | none => ({ state? := some st, next_set_id := stn.2 }, none)
  | some a =>
      let r := applyAngle d st a timestamp_ns
      ({ state? := some r.1, next_set_id := stn.2 }, r.2)

/-- One `update` call for the track: monotonic time, frame timestamp, angle. -/
structure UpdateCall where
  now : ℚ
  timestamp_ns : Int
  angle : Option ℚ
deriving DecidableEq

/-- Run a sequence of `update` calls for the track, collecting the emitted
events in order. -/
def runUpdates (d : ExerciseDefinition ℚ) (timeout : ℚ) (rc : RepCounterTrack) :
    List UpdateCall → RepCounterTrack × List RepCountedEvent
  | [] => (rc, [])
  | c :: cs =>
      let r := RepCounter.update d timeout rc c.now c.angle c.timestamp_ns
      let rest := runUpdates d timeout r.1 cs
      (rest.1, r.2.toList ++ rest.2)

/-- `RepCounter.get_rep_count` for the track: the stored `rep_count`, or the
fresh default `0` when no state exists. -/
def getRepCount (rc : RepCounterTrack) : Nat :=
  match rc.state? with
  | some st => st.rep_count
  | none => 0

/-- No idle rollover happens along a call sequence: each call is within
`timeout` of the previous one (and of the stored `last_seen_at`, for the
first call on an existing state). -/
def noRollover (timeout : ℚ) : Option ℚ → List UpdateCall → Prop
  | _, [] => True
  | none, c :: cs => noRollover timeout (some c.now) cs
  | some l, c :: cs => c.now - l ≤ timeout ∧ noRollover timeout (some c.now) cs

def noRollover.dec (timeout : ℚ) :
    (o : Option ℚ) → (cs : List UpdateCall) → Decidable (noRollover timeout o cs)
  | none, [] => .isTrue trivial
  | some _, [] => .isTrue trivial
  | none, c :: cs => noRollover.dec timeout (some c.now) cs
  | some _, c :: cs =>
      @instDecidableAnd _ _ (inferInstance) (noRollover.dec timeout (some c.now) cs)

instance (timeout : ℚ) (o : Option ℚ) (cs : List UpdateCall) :
    Decidable (noRollover timeout o cs) := noRollover.dec timeout o cs

/-- The `squat` definition used by seed scenario S1: `up_angle=160`,
`down_angle=100` (form checks irrelevant to the rep counter). -/
def squatDef : ExerciseDefinition ℚ :=
  { name := "squat"
    primary_joint := (11, 13, 15)
    up_angle := 160
    down_angle := 100
    form_checks := [] }

/-- The S1 angle signal: six samples of `165`, then five cycles of (eight
samples of `95` followed by eight samples of `165`). -/
def s1Angles : List ℚ :=
  List.replicate 6 165 ++
    (List.replicate 5 (List.replicate 8 (95 : ℚ) ++ List.replicate 8 165)).flatten

/-- Overwrite the monotonic time of a call with `0`. -/
def UpdateCall.zeroTime (c : UpdateCall) : UpdateCall :=
  { c with now := 0 }

/-- Replace the `last_seen_at` field of a track state. -/
def TrackState.setLast (st : TrackState) (t : ℚ) : TrackState :=
  { st with last_seen_at := t }

/-! ## Keypoint geometry (`keypoint_utils.py`), over the reals

The geometry computes square roots and inverse cosines, so it is modelled
over the exact reals; branch conditions use classical decidability. -/

noncomputable section
open Classical

/-- `Keypoint` from `gym_shared/events/schemas.py`. -/
structure Keypoint where
  x : ℝ
  y : ℝ
  z : ℝ
  visibility : ℝ

/-- `_VIS_THRESHOLD = 0.3`. -/
def VIS_THRESHOLD : ℝ := 3 / 10

/-- `compute_angle(a, b, c)` from `keypoint_utils.py`: the degree angle at `b`
formed by `a-b-c`, via the clamped cosine formula; `0.0` when either vector is
shorter than `1e-9` (`math.hypot x y = Real.sqrt (x^2 + y^2)`,
`math.degrees r = r * 180 / pi`). -/
def computeAngle (a b c : ℝ × ℝ) : ℝ :=
  let ax := a.1 - b.1
  let ay := a.2 - b.2
  let cx := c.1 - b.1
  let cy := c.2 - b.2
  let dot := ax * cx + ay * cy
  let mag_a := Real.sqrt (ax ^ 2 + ay ^ 2)
  let mag_c := Real.sqrt (cx ^ 2 + cy ^ 2)
  if mag_a < 1 / 1000000000 ∨ mag_c < 1 / 1000000000 then 0
  else
    let cos_angle := max (-1) (min 1 (dot / (mag_a * mag_c)))
    Real.arccos cos_angle * 180 / Real.pi

/-- Out-of-range keypoint accesses in the model (they cannot occur after the
bounds check, mirroring the Python list indexing). -/
def dummyKeypoint : Keypoint := { x := 0, y := 0, z := 0, visibility := 0 }

/-- `get_joint_angle(keypoints, a_idx, b_idx, c_idx)` from `keypoint_utils.py`:
`None` when an index is out of range or a referenced keypoint has visibility
below the threshold, otherwise the angle at `b_idx`. -/
def getJointAngle (keypoints : List Keypoint) (a_idx b_idx c_idx : Nat) : Option ℝ :=
  if max (max a_idx b_idx) c_idx ≥ keypoints.length then none
  else
    let ka := keypoints.getD a_idx dummyKeypoint
    let kb := keypoints.getD b_idx dummyKeypoint
    let kc := keypoints.getD c_idx dummyKeypoint
    if ka.visibility < VIS_THRESHOLD ∨ kb.visibility < VIS_THRESHOLD ∨
        kc.visibility < VIS_THRESHOLD then none
    else some (computeAngle (ka.x, ka.y) (kb.x, kb.y) (kc.x, kc.y))

/-! ## Form analyzer (`form_analyzer.py`) -/

/-- `AlertState` from `form_analyzer.py` (dataclass defaults:
`consecutive_frames = 0`, `last_fired_at = 0.0`). -/
structure AlertState where
  consecutive_frames : Nat
  last_fired_at : ℝ

def AlertState.init : AlertState := { consecutive_frames := 0, last_fired_at := 0 }

/-- `_DEBOUNCE_FRAMES = 3`. -/
def DEBOUNCE_FRAMES : Nat := 3

/-- `_COOLDOWN_SECONDS = 10.0`. -/
def COOLDOWN_SECONDS : ℝ := 10

/-- `FormAlertEvent` from `gym_shared/events/schemas.py`; the `joint_angles`
dict is modelled as an insertion-ordered association list. -/
structure FormAlertEvent where
  camera_id : String
  track_id : Nat
  exercise_set_id : String
  exercise_type : String
  rep_count : Nat
  alert_key : String
  alert_message : String
  severity : String
  joint_angles : List (String × ℝ)
  timestamp_ns : Int

/-- Python `round(x, 1)`, modelled as exact decimal rounding. -/
def round1 (x : ℝ) : ℝ := round (10 * x) / 10

/-- Python `round(x, 2)`, modelled as exact decimal rounding. -/
def round2 (x : ℝ) : ℝ := round (100 * x) / 100

/-- The f-string key of a joint triple. -/
def jointKey (a b c : Nat) : String :=
  toString a ++ "-" ++ toString b ++ "-" ++ toString c

/-- Insertion-ordered dict write: an existing key keeps its position and gets
the new value; a new key is appended. -/
def dictInsert (m : List (String × ℝ)) (k : String) (v : ℝ) : List (String × ℝ) :=
  if m.any (fun p => p.1 = k) then m.map (fun p => if p.1 = k then (k, v) else p)
  else m ++ [(k, v)]

/-- `defaultdict(AlertState)` for one track: a total map from alert key. -/
def AlertStates := String → AlertState

/-- Write one alert key's state. -/
def updAlert (s : AlertStates) (k : String) (st : AlertState) : AlertStates :=
  fun k2 => if k2 = k then st else s k2

/-- One iteration of the `for check in self._def.form_checks` loop of
`FormAnalyzer.check`: threading the per-key states and the accumulated
`joint_angles` dict, producing at most one alert. -/
def processFormCheck (exName : String) (track_id : Nat) (keypoints : List Keypoint)
    (exercise_set_id : String) (rep_count : Nat) (timestamp_ns : Int) (now : ℝ)
    (states : AlertStates) (joint_angles : List (String × ℝ)) (check : FormCheck ℝ) :
    AlertStates × List (String × ℝ) × Option FormAlertEvent :=
  match getJointAngle keypoints check.joint.1 check.joint.2.1 check.joint.2.2 with
  | none =>
      (updAlert states check.alert_key
        { states check.alert_key with consecutive_frames := 0 }, joint_angles, none)
  | some angle =>
      let key := jointKey check.joint.1 check.joint.2.1 check.joint.2.2
      let ja := dictInsert joint_angles key angle
      let out_of_range := ¬(check.min_angle ≤ angle ∧ angle ≤ check.max_angle)
      let st := states check.alert_key
      if out_of_range then
        let st1 := { st with consecutive_frames := st.consecutive_frames + 1 }
        if st1.consecutive_frames < DEBOUNCE_FRAMES then
          (updAlert states check.alert_key st1, ja, none)
        else if now - st1.last_fired_at < COOLDOWN_SECONDS then
          (updAlert states check.alert_key st1, ja, none)
        else
          let st2 := { st1 with last_fired_at := now }
          (updAlert states check.alert_key st2, ja,
           some { camera_id := ""
                  track_id := track_id
                  exercise_set_id := exercise_set_id
                  exercise_type := exName
                  rep_count := rep_count
                  alert_key := check.alert_key
                  alert_message := check.alert_message
                  severity := check.severity
                  joint_angles := ja.map (fun p => (p.1, round1 p.2))
                  timestamp_ns := timestamp_ns })
      else
        (updAlert states check.alert_key { st with consecutive_frames := 0 }, ja, none)

/-- The `for` loop of `FormAnalyzer.check` over a list of form checks. -/
def checkChecks (exName : String) (track_id : Nat) (keypoints : List Keypoint)
    (exercise_set_id : String) (rep_count : Nat) (timestamp_ns : Int) (now : ℝ)
    (states : AlertStates) (joint_angles : List (String × ℝ)) :
    List (FormCheck ℝ) → AlertStates × List (String × ℝ) × List FormAlertEvent
  | [] => (states, joint_angles, [])
  | check :: rest =>
      let r := processFormCheck exName track_id keypoints exercise_set_id rep_count
        timestamp_ns now states joint_angles check
      let r2 := checkChecks exName track_id keypoints exercise_set_id rep_count
        timestamp_ns now r.1 r.2.1 rest
      (r2.1, r2.2.1, r.2.2.toList ++ r2.2.2)

/-- `FormAnalyzer.check` for one track: evaluate all form checks, starting
from an empty `joint_angles` dict, and return the updated per-key states with
the triggered alerts. `now` is the monotonic-clock reading. -/
def FormAnalyzer.check (d : ExerciseDefinition ℝ) (track_id : Nat)
    (keypoints : List Keypoint) (exercise_set_id : String) (rep_count : Nat)
    (timestamp_ns : Int) (now : ℝ) (states : AlertStates) :
    AlertStates × List FormAlertEvent :=
  let r := checkChecks d.name track_id keypoints exercise_set_id rep_count
    timestamp_ns now states [] d.form_checks
  (r.1, r.2.2)

/-- One `FormAnalyzer.check` call: its monotonic time, keypoints and frame
timestamp. -/
structure CheckCall where
  now : ℝ
  keypoints : List Keypoint
  timestamp_ns : Int

/-- Run `FormAnalyzer.check` over consecutive frames of one track, tagging
each emitted alert with the monotonic time of the call that produced it. -/
def runFormChecks (d : ExerciseDefinition ℝ) (track_id : Nat) (exercise_set_id : String)
    (rep_count : Nat) (states : AlertStates) :
    List CheckCall → AlertStates × List (ℝ × FormAlertEvent)
  | [] => (states, [])
  | c :: cs =>
      let r := FormAnalyzer.check d track_id c.keypoints exercise_set_id rep_count
        c.timestamp_ns c.now states
      let rest := runFormChecks d track_id exercise_set_id rep_count r.1 cs
      (rest.1, r.2.map (fun e => (c.now, e)) ++ rest.2)

/-- The `joint_angles` dict accumulated by the loop of `FormAnalyzer.check`
after processing a given list of form checks (defined angles only). -/
def observedAngles (keypoints : List Keypoint) (joint_angles : List (String × ℝ)) :
    List (FormCheck ℝ) → List (String × ℝ)
  | [] => joint_angles
  | check :: rest =>
      match getJointAngle keypoints check.joint.1 check.joint.2.1 check.joint.2.2 with
      | none => observedAngles keypoints joint_angles rest
      | some angle =>
          observedAngles keypoints
            (dictInsert joint_angles (jointKey check.joint.1 check.joint.2.1 check.joint.2.2) angle)
            rest

/-! ## Heuristic classifier (`classifier.py`) -/

/-- `_WINDOW = 30`. -/
def WINDOW : Nat := 30

/-- `_MIN_VARIANCE = 5.0`. -/
def MIN_VARIANCE : ℝ := 5

/-- The mean of a list of reals. -/
def listMean (xs : List ℝ) : ℝ := xs.sum / xs.length

/-- `np.std(xs)`: the population standard deviation (`ddof = 0`, the NumPy
default used by `HeuristicClassifier._classify`). -/
def npStd (xs : List ℝ) : ℝ :=
  Real.sqrt ((xs.map (fun x => (x - listMean xs) ^ 2)).sum / xs.length)

/-- The Bessel-corrected sample standard deviation (`ddof = 1`), as the words
"sample standard deviation" of the specification read. -/
def sampleStd (xs : List ℝ) : ℝ :=
  Real.sqrt ((xs.map (fun x => (x - listMean xs) ^ 2)).sum / ((xs.length : ℝ) - 1))

/-- The per-track classifier history: exercise name to angle FIFO
(`deque(maxlen=30)`), in registry load order. -/
abbrev ClassifierHistory := List (String × List ℝ)

/-- `dict.get(k, d)` on an association list. -/
def lookupD {α : Type} (m : List (String × α)) (k : String) (d : α) : α :=
  match m.find? (fun p => p.1 = k) with
  | some p => p.2
  | none => d

/-- Python `max(xs)` for a nonempty list. -/
def maxList (xs : List ℝ) : ℝ := xs.foldl max (xs.headD 0)

/-- Python `min(xs)` for a nonempty list. -/
def minList (xs : List ℝ) : ℝ := xs.foldl min (xs.headD 0)

/-- `HeuristicClassifier._disambiguate_elbow_exercises`: when the squat
history spans less than 20 degrees the subject is standing, and either
`bicep_curl` or `push_up` is suppressed (variance set to 0). -/
def disambiguateElbow (variances : List (String × ℝ)) (history : ClassifierHistory) :
    List (String × ℝ) :=
  let squat_hist := lookupD history "squat" []
  let lower_body_range :=
    if squat_hist ≠ [] then maxList squat_hist - minList squat_hist else 0
  if lower_body_range < 20 then
    if lookupD variances "push_up" 0 > lookupD variances "bicep_curl" 0 * (3 / 2) then
      dictInsert variances "bicep_curl" 0
    else
      dictInsert variances "push_up" 0
  else variances

/-- Python `max(items, key=value)`: the first pair attaining the maximal
value (later pairs replace the best only when strictly greater). -/
def argmaxFirst (l : List (String × ℝ)) : String × ℝ :=
  match l with
  | [] => ("", 0)
  | p :: ps => ps.foldl (fun best q => if q.2 > best.2 then q else best) p

/-- `HeuristicClassifier._classify`, parameterized by the numeric function
used for `np.std`: keep exercises with at least `_WINDOW // 2` samples,
disambiguate push-up against bicep curl when both are present, pick the
largest std-dev, threshold at `_MIN_VARIANCE`, and report the clamped,
rounded confidence (`sum(...) or 1.0` is the zero-guard on the total). -/
def Classifier.classify (std : List ℝ → ℝ) (history : ClassifierHistory) : String × ℝ :=
  let variances := (history.filter (fun p => WINDOW / 2 ≤ p.2.length)).map
    (fun p => (p.1, std p.2))
  if variances.isEmpty then ("unknown", 0)
  else
    let variances :=
      if (variances.any (fun p => p.1 = "push_up")) ∧
          (variances.any (fun p => p.1 = "bicep_curl")) then
        disambiguateElbow variances history
      else variances
    let best := argmaxFirst variances
    if best.2 < MIN_VARIANCE then ("unknown", 0)
    else
      let total := if (variances.map (fun p => p.2)).sum = 0 then 1
                   else (variances.map (fun p => p.2)).sum
      (best.1, round2 (min 1 (best.2 / total)))

/-- The classifier result exactly as the specification sentence describes it,
parameterized by the standard-deviation function: for each exercise whose
FIFO has at least 15 samples compute the standard deviation; after any
disambiguation pick the exercise with the largest std-dev; below 5.0 return
`("unknown", 0.0)`; otherwise the name with confidence
`min(1, best / sum of std-devs)` rounded to 2 decimal places. -/
def specClassify (std : List ℝ → ℝ) (history : ClassifierHistory) : String × ℝ :=
  let stds := (history.filter (fun p => 15 ≤ p.2.length)).map (fun p => (p.1, std p.2))
  let stds :=
    if (stds.any (fun p => p.1 = "push_up")) ∧ (stds.any (fun p => p.1 = "bicep_curl")) then
      disambiguateElbow stds history
    else stds
  let best := argmaxFirst stds
  if best.2 < 5 then ("unknown", 0)
  else (best.1, round2 (min 1 (best.2 / (stds.map (fun p => p.2)).sum)))

/-! ## Exercise registry (`exercise_registry.py`) -/

/-- `ExerciseRegistry`: the insertion-ordered `_exercises` mapping built by
`_load` from the YAML file. -/
structure ExerciseRegistry where
  exercises : List (String × ExerciseDefinition ℝ)

/-- `ExerciseRegistry.get_exercise`: the raised `KeyError` is modelled as
`Except.error`; the first component is the registry contents after the call
(the method only reads them, so they are returned unchanged). -/
def ExerciseRegistry.getExercise (r : ExerciseRegistry) (name : String) :
    ExerciseRegistry × Except String (ExerciseDefinition ℝ) :=
  match r.exercises.find? (fun p => p.1 = name) with
  | some p => (r, Except.ok p.2)
  | none => (r, Except.error ("Unknown exercise " ++ name))

end

/-! ## Concrete instances used by the seed scenarios and counterexamples -/

/-- Call sequences whose consecutive monotonic times are within the idle
timeout of each other. -/
def withinTimeout (timeout : ℚ) (ts : List ℚ) : Prop :=
  ts.Chain' (fun a b => b - a ≤ timeout)

/-- The S1 calls: monotonic time `t`, frame timestamp 0, a defined angle. -/
def mkS1Call (t : ℚ) (a : ℚ) : UpdateCall :=
  { now := t, timestamp_ns := 0, angle := some a }

/-- The S1 calls at monotonic time 0. -/
def s1CallsZero : List UpdateCall := s1Angles.map (fun a => mkS1Call 0 a)

/-- A mid-set track state used to witness the rep-counter claims: two reps
counted, currently in the `up` phase, last seen at 5 s. -/
def stW : TrackState :=
  { exercise_type := "squat", set_id := 0, rep_count := 2, phase := Phase.up,
    angle_history := [165], phase_frame_count := 0, last_seen_at := 5 }

/-- A rep counter holding `stW` for the track. -/
def rcW : RepCounterTrack := { state? := some stW, next_set_id := 1 }

noncomputable section
open Classical

/-- A fully visible keypoint at the given image position. -/
def kptVis (px py : ℝ) : Keypoint := { x := px, y := py, z := 0, visibility := 1 }

/-- Keypoints for the form-analyzer counterexample: indices 0-1-2 span a
0-degree angle (collinear, same direction), indices 3-4-5 span 90 degrees. -/
def kps6 : List Keypoint :=
  [kptVis 1 0, kptVis 0 0, kptVis 2 0, kptVis 0 1, kptVis 0 0, kptVis 1 0]

/-- First form check of the counterexample exercise: angle 0-1-2 must stay in
`[80, 180]` (violated by `kps6`). -/
def chk1 : FormCheck ℝ :=
  { name := "depth", joint := (0, 1, 2), min_angle := 80, max_angle := 180,
    alert_key := "k1", alert_message := "m1", severity := "warning" }

/-- Second form check: angle 3-4-5 must stay in `[0, 180]` (satisfied by
`kps6`, so this check never fires). -/
def chk2 : FormCheck ℝ :=
  { name := "back", joint := (3, 4, 5), min_angle := 0, max_angle := 180,
    alert_key := "k2", alert_message := "m2", severity := "warning" }

/-- A two-check exercise: the first check fires while the second check's
angle is defined and in range. -/
def def6 : ExerciseDefinition ℝ :=
  { name := "squat", primary_joint := (11, 13, 15), up_angle := 160,
    down_angle := 100, form_checks := [chk1, chk2] }

/-- Alert states after two prior out-of-range frames for `k1`, none for the
rest. -/
def states6 : AlertStates :=
  fun k => if k = "k1" then { consecutive_frames := 2, last_fired_at := 0 }
           else AlertState.init

/-- The alert that `FormAnalyzer.check` emits in the counterexample: its
`joint_angles` hold only the `0-1-2` angle, not the defined `3-4-5` angle
of the later check. -/
def ev6 : FormAlertEvent :=
  { camera_id := "", track_id := 0, exercise_set_id := "set0",
    exercise_type := "squat", rep_count := 0, alert_key := "k1",
    alert_message := "m1", severity := "warning",
    joint_angles := [(jointKey 0 1 2, 0)], timestamp_ns := 0 }

/-- 50 degrees in radians. -/
def theta50 : ℝ := 5 * Real.pi / 18

/-- Keypoints whose 0-1-2 joint angle is exactly 50 degrees. -/
def kps50 : List Keypoint :=
  [kptVis 1 0, kptVis 0 0, kptVis (Real.cos theta50) (Real.sin theta50)]

/-- The S4 form check: allowed range `[80, 180]`. -/
def chk50 : FormCheck ℝ :=
  { name := "range", joint := (0, 1, 2), min_angle := 80, max_angle := 180,
    alert_key := "low_angle", alert_message := "too low", severity := "warning" }

/-- A one-check exercise for S4. -/
def def50 : ExerciseDefinition ℝ :=
  { name := "ex", primary_joint := (0, 1, 2), up_angle := 160, down_angle := 100,
    form_checks := [chk50] }

/-- One S4 call at monotonic time `t`. -/
def call50 (t : ℝ) : CheckCall := { now := t, keypoints := kps50, timestamp_ns := 0 }

/-- A fresh analyzer: `defaultdict(AlertState)` with no entries yet. -/
def statesInit : AlertStates := fun _ => AlertState.init

/-- Fifteen classifier samples: five of `110.5` and ten of `100`.  Their
population variance is `24.5` (std-dev about `4.95`, below the `5.0`
threshold) while their sample variance is `26.25` (std-dev about `5.12`,
above it). -/
def vals5 : List ℝ := List.replicate 5 (221 / 2) ++ List.replicate 10 100

/-- A classifier history where only `squat` has enough samples. -/
def hist5 : ClassifierHistory := [("squat", vals5)]

/-- A one-exercise registry. -/
def reg9 : ExerciseRegistry := { exercises := [("squat", def6)] }

/-- Default used for out-of-range list accesses on form-check lists. -/
def dummyFormCheck : FormCheck ℝ :=
  { name := "", joint := (0, 0, 0), min_angle := 0, max_angle := 0,
    alert_key := "", alert_message := "", severity := "" }

end

theorem TrackState.setLast_self (st : TrackState) : st.setLast st.last_seen_at = st := rfl

theorem applyAngle_setLast (d : ExerciseDefinition ℚ) (st : TrackState) (t a : ℚ) (tsn : Int) :
    applyAngle d (st.setLast t) a tsn =
      ((applyAngle d st a tsn).1.setLast t, (applyAngle d st a tsn).2) := by
  cases st
  simp only [applyAngle, TrackState.setLast]
  repeat' split
  all_goals simp_all

theorem applyAngle_last_seen (d : ExerciseDefinition ℚ) (st : TrackState) (a : ℚ) (tsn : Int) :
    (applyAngle d st a tsn).1.last_seen_at = st.last_seen_at := by
  have h := applyAngle_setLast d st st.last_seen_at a tsn
  rw [TrackState.setLast_self] at h
  conv_lhs => rw [h]
  rfl

theorem applyAngle_rep_mono (d : ExerciseDefinition ℚ) (st : TrackState) (a : ℚ) (tsn : Int) :
    st.rep_count ≤ (applyAngle d st a tsn).1.rep_count := by
  cases st
  simp only [applyAngle]
  repeat' split
  all_goals simp_all

theorem applyAngle_set_id (d : ExerciseDefinition ℚ) (st : TrackState) (a : ℚ) (tsn : Int) :
    (applyAngle d st a tsn).1.set_id = st.set_id := by
  cases st
  simp only [applyAngle]
  repeat' split
  all_goals simp_all

theorem update_existing (d : ExerciseDefinition ℚ) (T : ℚ) (rc : RepCounterTrack)
    (st : TrackState) (now : ℚ) (angle : Option ℚ) (tsn : Int)
    (hst : rc.state? = some st) (h : now - st.last_seen_at ≤ T) :
    RepCounter.update d T rc now angle tsn =
      match angle with
      | none => ({ state? := some (st.setLast now), next_set_id := rc.next_set_id }, none)
      | some a =>
          ({ state? := some (applyAngle d (st.setLast now) a tsn).1,
             next_set_id := rc.next_set_id }, (applyAngle d (st.setLast now) a tsn).2) := by
  unfold RepCounter.update getOrCreate
  rw [hst]
  dsimp only
  rw [if_neg (not_lt.mpr h)]
  cases angle <;> rfl

theorem update_fresh (d : ExerciseDefinition ℚ) (T : ℚ) (rc : RepCounterTrack)
    (now : ℚ) (angle : Option ℚ) (tsn : Int) (hst : rc.state? = none) :
    RepCounter.update d T rc now angle tsn =
      match angle with
      | none => ({ state? := some (freshTrackState d.name rc.next_set_id now),
                   next_set_id := rc.next_set_id + 1 }, none)
      | some a =>
          ({ state? := some (applyAngle d (freshTrackState d.name rc.next_set_id now) a tsn).1,
             next_set_id := rc.next_set_id + 1 },
           (applyAngle d (freshTrackState d.name rc.next_set_id now) a tsn).2) := by
  unfold RepCounter.update getOrCreate
  rw [hst]
  dsimp only
  cases angle <;> rfl

theorem TrackState.setLast_setLast (st : TrackState) (t1 t2 : ℚ) :
    (st.setLast t1).setLast t2 = st.setLast t2 := rfl

theorem update_state_last (d : ExerciseDefinition ℚ) (T : ℚ) (rc : RepCounterTrack)
    (now : ℚ) (angle : Option ℚ) (tsn : Int) :
    ((RepCounter.update d T rc now angle tsn).1.state?).map TrackState.last_seen_at =
      some now := by
  unfold RepCounter.update getOrCreate
  cases hst : rc.state? <;> cases angle <;> dsimp only <;>
    simp [applyAngle_last_seen]

theorem update_rep_mono (d : ExerciseDefinition ℚ) (T : ℚ) (rc : RepCounterTrack)
    (now : ℚ) (angle : Option ℚ) (tsn : Int)
    (h : ∀ st, rc.state? = some st → now - st.last_seen_at ≤ T) :
    getRepCount rc ≤ getRepCount (RepCounter.update d T rc now angle tsn).1 := by
  cases hst : rc.state? with
  | none =>
      rw [update_fresh d T rc now angle tsn hst]
      cases angle <;> simp [getRepCount, hst]
  | some st =>
      rw [update_existing d T rc st now angle tsn hst (h st hst)]
      cases angle with
      | none => simp [getRepCount, hst, TrackState.setLast]
      | some a =>
          simp only [getRepCount, hst]
          exact applyAngle_rep_mono d (st.setLast now) a tsn

theorem noRollover_cons (T : ℚ) (o : Option ℚ) (c : UpdateCall) (cs : List UpdateCall)
    (h : noRollover T o (c :: cs)) : noRollover T (some c.now) cs := by
  cases o
  · exact h
  · exact h.2

theorem runUpdates_rep_mono (d : ExerciseDefinition ℚ) (T : ℚ) :
    ∀ (calls : List UpdateCall) (rc : RepCounterTrack),
      noRollover T (rc.state?.map TrackState.last_seen_at) calls →
      getRepCount rc ≤ getRepCount (runUpdates d T rc calls).1
  | [], _, _ => le_refl _
  | c :: cs, rc, h => by
      have h1 : ∀ st, rc.state? = some st → c.now - st.last_seen_at ≤ T := by
        intro st hst
        rw [hst] at h
        exact h.1
      have hmono := update_rep_mono d T rc c.now c.angle c.timestamp_ns h1
      have hrest : noRollover T
          (((RepCounter.update d T rc c.now c.angle c.timestamp_ns).1.state?).map
            TrackState.last_seen_at) cs := by
        rw [update_state_last]
        exact noRollover_cons T _ c cs h
      have ih := runUpdates_rep_mono d T cs
        (RepCounter.update d T rc c.now c.angle c.timestamp_ns).1 hrest
      exact le_trans hmono ih

theorem runUpdates_events_zeroTime (d : ExerciseDefinition ℚ) (T : ℚ) (hT : 0 ≤ T) :
    ∀ (calls : List UpdateCall) (st : TrackState) (n : Nat),
      noRollover T (some st.last_seen_at) calls →
      (runUpdates d T { state? := some st, next_set_id := n } calls).2 =
        (runUpdates d T { state? := some (st.setLast 0), next_set_id := n }
          (calls.map UpdateCall.zeroTime)).2
  | [], _, _, _ => rfl
  | ⟨cnow, ctsn, cangle⟩ :: cs, st, n, h => by
      have hgap : cnow - st.last_seen_at ≤ T := h.1
      have hgap0 : (0 : ℚ) - (st.setLast 0).last_seen_at ≤ T := by
        simpa [TrackState.setLast] using hT
      have hrest : noRollover T (some cnow) cs :=
        noRollover_cons T (some st.last_seen_at) ⟨cnow, ctsn, cangle⟩ cs h
      simp only [List.map_cons, runUpdates, UpdateCall.zeroTime]
      cases cangle with
      | none =>
          rw [update_existing d T _ st cnow none ctsn rfl hgap,
              update_existing d T _ (st.setLast 0) 0 none ctsn rfl hgap0]
          simp only [Option.toList, List.nil_append]
          exact runUpdates_events_zeroTime d T hT cs (st.setLast cnow) n hrest
      | some a =>
          rw [update_existing d T _ st cnow (some a) ctsn rfl hgap,
              update_existing d T _ (st.setLast 0) 0 (some a) ctsn rfl hgap0]
          dsimp only
          have hbase : (st.setLast 0).setLast 0 = (st.setLast cnow).setLast 0 := rfl
          rw [hbase, applyAngle_setLast d (st.setLast cnow) 0 a ctsn]
          dsimp only
          congr 1
          have hlastA : (applyAngle d (st.setLast cnow) a ctsn).1.last_seen_at = cnow := by
            rw [applyAngle_last_seen]
            rfl
          have ih := runUpdates_events_zeroTime d T hT cs
            (applyAngle d (st.setLast cnow) a ctsn).1 n (by rw [hlastA]; exact hrest)
          exact ih

theorem runUpdates_events_zeroTime_fresh (d : ExerciseDefinition ℚ) (T : ℚ) (hT : 0 ≤ T)
    (calls : List UpdateCall) (rc : RepCounterTrack) (hrc : rc.state? = none)
    (h : noRollover T none calls) :
    (runUpdates d T rc calls).2 = (runUpdates d T rc (calls.map UpdateCall.zeroTime)).2 := by
  cases calls with
  | nil => rfl
  | cons c cs =>
      obtain ⟨cnow, ctsn, cangle⟩ := c
      have hrest : noRollover T (some cnow) cs := h
      simp only [List.map_cons, runUpdates, UpdateCall.zeroTime]
      cases cangle with
      | none =>
          rw [update_fresh d T rc cnow none ctsn hrc, update_fresh d T rc 0 none ctsn hrc]
          simp only [Option.toList, List.nil_append]
          have hfr : freshTrackState d.name rc.next_set_id 0 =
              (freshTrackState d.name rc.next_set_id cnow).setLast 0 := rfl
          rw [hfr]
          exact runUpdates_events_zeroTime d T hT cs
            (freshTrackState d.name rc.next_set_id cnow) (rc.next_set_id + 1) hrest
      | some a =>
          rw [update_fresh d T rc cnow (some a) ctsn hrc, update_fresh d T rc 0 (some a) ctsn hrc]
          dsimp only
          have hfr : freshTrackState d.name rc.next_set_id 0 =
              (freshTrackState d.name rc.next_set_id cnow).setLast 0 := rfl
          rw [hfr, applyAngle_setLast d (freshTrackState d.name rc.next_set_id cnow) 0 a ctsn]
          dsimp only
          congr 1
          have hlastA : (applyAngle d (freshTrackState d.name rc.next_set_id cnow) a ctsn).1.last_seen_at = cnow := by
            rw [applyAngle_last_seen]
            rfl
          exact runUpdates_events_zeroTime d T hT cs
            (applyAngle d (freshTrackState d.name rc.next_set_id cnow) a ctsn).1 (rc.next_set_id + 1)
            (by rw [hlastA]; exact hrest)

theorem noRollover_of_chain_some (T : ℚ) :
    ∀ (cs : List UpdateCall) (l : ℚ),
      List.Chain' (fun a b => b - a ≤ T) (l :: cs.map (fun c => c.now)) →
      noRollover T (some l) cs
  | [], _, _ => trivial
  | c :: cs, l, h => by
      rw [List.map_cons, List.chain'_cons] at h
      exact ⟨h.1, noRollover_of_chain_some T cs c.now (by simpa using h.2)⟩

theorem noRollover_of_chain_none (T : ℚ) (cs : List UpdateCall)
    (h : List.Chain' (fun a b => b - a ≤ T) (cs.map (fun c => c.now))) :
    noRollover T none cs := by
  cases cs with
  | nil => trivial
  | cons c cs =>
      show noRollover T (some c.now) cs
      exact noRollover_of_chain_some T cs c.now (by simpa using h)

theorem zip_mkS1Call_facts :
    ∀ (ts angles : List ℚ), ts.length = angles.length →
      (ts.zipWith mkS1Call angles).map (fun c => c.now) = ts ∧
      (ts.zipWith mkS1Call angles).map UpdateCall.zeroTime =
        angles.map (fun a => mkS1Call 0 a)
  | [], [], _ => ⟨rfl, rfl⟩
  | [], a :: angles, h => by simp at h
  | t :: ts, [], h => by simp at h
  | t :: ts, a :: angles, h => by
      have ih := zip_mkS1Call_facts ts angles (by simpa using h)
      simp only [List.zipWith_cons_cons, List.map_cons, ih.1, ih.2]
      exact ⟨rfl, rfl⟩

/-- Claim C1: for a fresh `RepCounter` over an exercise with `up_angle = 160`
and `down_angle = 100`, feeding `update()` for one track six samples of 165
followed by five cycles of (eight samples of 95, eight samples of 165), with
every call within the idle timeout of the previous one, produces exactly five
`RepCountedEvent`s whose `rep_number` values are 1, 2, 3, 4, 5 in order. -/
theorem c1_five_squat_reps (ts : List ℚ) (hlen : ts.length = 86)
    (hgap : withinTimeout 60 ts) :
    ((runUpdates squatDef 60 RepCounterTrack.init (ts.zipWith mkS1Call s1Angles)).2).map
      (fun e => e.rep_number) = [1, 2, 3, 4, 5] := by
  have hlen2 : ts.length = s1Angles.length := by
    rw [hlen]
    with_unfolding_all decide
  have hfacts := zip_mkS1Call_facts ts s1Angles hlen2
  have hnr : noRollover 60 none (ts.zipWith mkS1Call s1Angles) :=
    noRollover_of_chain_none 60 _ (by rw [hfacts.1]; exact hgap)
  have hzero := runUpdates_events_zeroTime_fresh squatDef 60 (by norm_num)
    (ts.zipWith mkS1Call s1Angles) RepCounterTrack.init rfl hnr
  rw [hzero, hfacts.2]
  with_unfolding_all decide

/-- Witness for C1 at the time sequence that is constantly zero. -/
theorem c1_five_squat_reps_witness :
    (List.replicate 86 (0 : ℚ)).length = 86 ∧ withinTimeout 60 (List.replicate 86 (0 : ℚ)) ∧
    ((runUpdates squatDef 60 RepCounterTrack.init
        ((List.replicate 86 (0 : ℚ)).zipWith mkS1Call s1Angles)).2).map
      (fun e => e.rep_number) = [1, 2, 3, 4, 5] :=
  ⟨by with_unfolding_all decide, List.chain'_replicate_of_rel 86 (by norm_num),
   c1_five_squat_reps (List.replicate 86 (0 : ℚ)) (by with_unfolding_all decide)
     (List.chain'_replicate_of_rel 86 (by norm_num))⟩

theorem update_rollover (d : ExerciseDefinition ℚ) (T : ℚ) (rc : RepCounterTrack)
    (st : TrackState) (now : ℚ) (angle : Option ℚ) (tsn : Int)
    (hst : rc.state? = some st) (h : now - st.last_seen_at > T) :
    RepCounter.update d T rc now angle tsn =
      match angle with
      | none => ({ state? := some (freshTrackState d.name rc.next_set_id now),
                   next_set_id := rc.next_set_id + 1 }, none)
      | some a =>
          ({ state? := some (applyAngle d (freshTrackState d.name rc.next_set_id now) a tsn).1,
             next_set_id := rc.next_set_id + 1 },
           (applyAngle d (freshTrackState d.name rc.next_set_id now) a tsn).2) := by
  unfold RepCounter.update getOrCreate
  rw [hst]
  dsimp only
  rw [if_pos h]
  cases angle <;> rfl

theorem update_set_id_lt (d : ExerciseDefinition ℚ) (T : ℚ) (rc : RepCounterTrack)
    (now : ℚ) (angle : Option ℚ) (tsn : Int)
    (hinv : ∀ st, rc.state? = some st → st.set_id < rc.next_set_id) :
    ∀ st2, (RepCounter.update d T rc now angle tsn).1.state? = some st2 →
      st2.set_id < (RepCounter.update d T rc now angle tsn).1.next_set_id := by
  intro st2 h2
  cases hst : rc.state? with
  | none =>
      rw [update_fresh d T rc now angle tsn hst] at h2 ⊢
      cases angle with
      | none =>
          simp only [Option.some.injEq] at h2
          subst h2
          exact Nat.lt_succ_self rc.next_set_id
      | some a =>
          simp only [Option.some.injEq] at h2
          subst h2
          rw [applyAngle_set_id]
          exact Nat.lt_succ_self rc.next_set_id
  | some st =>
      by_cases hroll : now - st.last_seen_at > T
      · rw [update_rollover d T rc st now angle tsn hst hroll] at h2 ⊢
        cases angle with
        | none =>
            simp only [Option.some.injEq] at h2
            subst h2
            exact Nat.lt_succ_self rc.next_set_id
        | some a =>
            simp only [Option.some.injEq] at h2
            subst h2
            rw [applyAngle_set_id]
            exact Nat.lt_succ_self rc.next_set_id
      · rw [update_existing d T rc st now angle tsn hst (le_of_not_lt hroll)] at h2 ⊢
        cases angle with
        | none =>
            simp only [Option.some.injEq] at h2
            subst h2
            exact hinv st hst
        | some a =>
            simp only [Option.some.injEq] at h2
            subst h2
            rw [applyAngle_set_id]
            exact hinv st hst

theorem runUpdates_set_id_lt (d : ExerciseDefinition ℚ) (T : ℚ) :
    ∀ (calls : List UpdateCall) (rc : RepCounterTrack),
      (∀ st, rc.state? = some st → st.set_id < rc.next_set_id) →
      ∀ st2, (runUpdates d T rc calls).1.state? = some st2 →
        st2.set_id < (runUpdates d T rc calls).1.next_set_id
  | [], _, hinv => hinv
  | c :: cs, rc, hinv =>
      runUpdates_set_id_lt d T cs (RepCounter.update d T rc c.now c.angle c.timestamp_ns).1
        (update_set_id_lt d T rc c.now c.angle c.timestamp_ns hinv)

/-- Claim C2: across any update sequence without an idle rollover, the
track's rep count never decreases; and an idle rollover replaces the state
by one with `rep_count = 0` and a fresh `set_id` (drawn from the fresh-id
supply, hence different from the replaced one). -/
theorem c2_rep_count_monotone (d : ExerciseDefinition ℚ) (T : ℚ) (rc : RepCounterTrack)
    (calls : List UpdateCall)
    (hnr : noRollover T (rc.state?.map TrackState.last_seen_at) calls) :
    getRepCount rc ≤ getRepCount (runUpdates d T rc calls).1 ∧
    (∀ st now, rc.state? = some st → now - st.last_seen_at > T →
      (getOrCreate d.name T rc now).1.rep_count = 0 ∧
      (getOrCreate d.name T rc now).1.set_id = rc.next_set_id ∧
      (st.set_id < rc.next_set_id → (getOrCreate d.name T rc now).1.set_id ≠ st.set_id)) := by
  refine ⟨runUpdates_rep_mono d T calls rc hnr, fun st now hst hidle => ?_⟩
  unfold getOrCreate
  rw [hst]
  dsimp only
  rw [if_pos hidle]
  exact ⟨rfl, rfl, fun hsup => Ne.symm (Nat.ne_of_lt hsup)⟩

/-- Witness for C2: a two-rep state updated once within the timeout keeps at
least two reps, and a rollover at time 100 zeroes the count with a new id. -/
theorem c2_rep_count_monotone_witness :
    noRollover 60 (rcW.state?.map TrackState.last_seen_at) [mkS1Call 10 95] ∧
    getRepCount rcW ≤ getRepCount (runUpdates squatDef 60 rcW [mkS1Call 10 95]).1 ∧
    (getOrCreate squatDef.name 60 rcW 100).1.rep_count = 0 ∧
    (getOrCreate squatDef.name 60 rcW 100).1.set_id ≠ stW.set_id := by
  have h := c2_rep_count_monotone squatDef 60 rcW [mkS1Call 10 95]
    (by with_unfolding_all decide)
  have h2 := h.2 stW 100 rfl (by with_unfolding_all decide)
  exact ⟨by with_unfolding_all decide, h.1, h2.1, h2.2.2 (by decide)⟩

/-- Claim C3: when more than the idle timeout has elapsed since a track's
`last_seen_at`, the state the next update operates on is fresh: zero reps, a
new `set_id` (different from the replaced one), unknown phase, empty angle
history. -/
theorem c3_idle_rollover_fresh (exName : String) (T : ℚ) (rc : RepCounterTrack)
    (st : TrackState) (now : ℚ) (hst : rc.state? = some st)
    (hidle : now - st.last_seen_at > T) (hsup : st.set_id < rc.next_set_id) :
    (getOrCreate exName T rc now).1.rep_count = 0 ∧
    (getOrCreate exName T rc now).1.set_id ≠ st.set_id ∧
    (getOrCreate exName T rc now).1.phase = Phase.unknown ∧
    (getOrCreate exName T rc now).1.angle_history = [] := by
  unfold getOrCreate
  rw [hst]
  dsimp only
  rw [if_pos hidle]
  exact ⟨rfl, Ne.symm (Nat.ne_of_lt hsup), rfl, rfl⟩

/-- Witness for C3 at a concrete idle track. -/
theorem c3_idle_rollover_fresh_witness :
    (100 : ℚ) - stW.last_seen_at > 60 ∧ stW.set_id < rcW.next_set_id ∧
    (getOrCreate "squat" 60 rcW 100).1.rep_count = 0 ∧
    (getOrCreate "squat" 60 rcW 100).1.set_id ≠ stW.set_id ∧
    (getOrCreate "squat" 60 rcW 100).1.phase = Phase.unknown ∧
    (getOrCreate "squat" 60 rcW 100).1.angle_history = [] := by
  have h := c3_idle_rollover_fresh "squat" 60 rcW stW 100 rfl
    (by with_unfolding_all decide) (by decide)
  exact ⟨by with_unfolding_all decide, by decide, h.1, h.2.1, h.2.2.1, h.2.2.2⟩

/-- Claim C10: an update with an undefined angle within the idle timeout
returns no event and changes nothing except `last_seen_at`. -/
theorem c10_undefined_angle_noop (d : ExerciseDefinition ℚ) (T : ℚ) (rc : RepCounterTrack)
    (st : TrackState) (now : ℚ) (tsn : Int) (hst : rc.state? = some st)
    (h : now - st.last_seen_at ≤ T) :
    RepCounter.update d T rc now none tsn =
      ({ state? := some { st with last_seen_at := now },
         next_set_id := rc.next_set_id }, none) :=
  update_existing d T rc st now none tsn hst h

/-- Witness for C10 at a concrete in-timeout state. -/
theorem c10_undefined_angle_noop_witness :
    (10 : ℚ) - stW.last_seen_at ≤ 60 ∧
    RepCounter.update squatDef 60 rcW 10 none 3 =
      ({ state? := some { stW with last_seen_at := 10 },
         next_set_id := rcW.next_set_id }, none) :=
  ⟨by with_unfolding_all decide,
   c10_undefined_angle_noop squatDef 60 rcW stW 10 3 rfl (by with_unfolding_all decide)⟩

/-- Claim C4: `get_joint_angle` returns `None` iff some index is out of range
of the keypoint list or one of the three referenced keypoints has visibility
below 0.3; otherwise it returns the degree angle at the middle keypoint. -/
theorem c4_joint_angle_characterization (kps : List Keypoint) (a b c : Nat) :
    (getJointAngle kps a b c = none ↔
      (kps.length ≤ max (max a b) c ∨
       (kps.getD a dummyKeypoint).visibility < VIS_THRESHOLD ∨
       (kps.getD b dummyKeypoint).visibility < VIS_THRESHOLD ∨
       (kps.getD c dummyKeypoint).visibility < VIS_THRESHOLD)) ∧
    (¬(kps.length ≤ max (max a b) c ∨
       (kps.getD a dummyKeypoint).visibility < VIS_THRESHOLD ∨
       (kps.getD b dummyKeypoint).visibility < VIS_THRESHOLD ∨
       (kps.getD c dummyKeypoint).visibility < VIS_THRESHOLD) →
      getJointAngle kps a b c =
        some (computeAngle
          ((kps.getD a dummyKeypoint).x, (kps.getD a dummyKeypoint).y)
          ((kps.getD b dummyKeypoint).x, (kps.getD b dummyKeypoint).y)
          ((kps.getD c dummyKeypoint).x, (kps.getD c dummyKeypoint).y))) := by
  classical
  by_cases h1 : kps.length ≤ max (max a b) c
  · have e : getJointAngle kps a b c = none := by
      unfold getJointAngle
      rw [if_pos h1]
    exact ⟨iff_of_true e (Or.inl h1), fun hc => absurd (Or.inl h1) hc⟩
  · by_cases h2 : (kps.getD a dummyKeypoint).visibility < VIS_THRESHOLD ∨
        (kps.getD b dummyKeypoint).visibility < VIS_THRESHOLD ∨
        (kps.getD c dummyKeypoint).visibility < VIS_THRESHOLD
    · have e : getJointAngle kps a b c = none := by
        unfold getJointAngle
        rw [if_neg h1]
        dsimp only
        rw [if_pos h2]
      exact ⟨iff_of_true e (Or.inr h2), fun hc => absurd (Or.inr h2) hc⟩
    · have e : getJointAngle kps a b c =
          some (computeAngle
            ((kps.getD a dummyKeypoint).x, (kps.getD a dummyKeypoint).y)
            ((kps.getD b dummyKeypoint).x, (kps.getD b dummyKeypoint).y)
            ((kps.getD c dummyKeypoint).x, (kps.getD c dummyKeypoint).y)) := by
        unfold getJointAngle
        rw [if_neg h1]
        dsimp only
        rw [if_neg h2]
      refine ⟨iff_of_false (by rw [e]; simp) ?_, fun _ => e⟩
      intro hor
      rcases hor with h | h
      · exact h1 h
      · exact h2 h

/-- Witness for C4: on six fully visible keypoints the angle 0-1-2 is
defined and equals the computed angle. -/
theorem c4_joint_angle_characterization_witness :
    ¬(kps6.length ≤ max (max 0 1) 2 ∨
      (kps6.getD 0 dummyKeypoint).visibility < VIS_THRESHOLD ∨
      (kps6.getD 1 dummyKeypoint).visibility < VIS_THRESHOLD ∨
      (kps6.getD 2 dummyKeypoint).visibility < VIS_THRESHOLD) ∧
    getJointAngle kps6 0 1 2 = some (computeAngle (1, 0) (0, 0) (2, 0)) := by
  have hnot : ¬(kps6.length ≤ max (max 0 1) 2 ∨
      (kps6.getD 0 dummyKeypoint).visibility < VIS_THRESHOLD ∨
      (kps6.getD 1 dummyKeypoint).visibility < VIS_THRESHOLD ∨
      (kps6.getD 2 dummyKeypoint).visibility < VIS_THRESHOLD) := by
    simp [kps6, kptVis, VIS_THRESHOLD]
    norm_num
  have h := (c4_joint_angle_characterization kps6 0 1 2).2 hnot
  refine ⟨hnot, ?_⟩
  simpa [kps6, kptVis] using h

/-- Claim C9: registry lookup returns the loaded definition for a present
key and a catchable error for an unknown key, leaving the registry contents
unchanged in either case. -/
theorem c9_registry_lookup (r : ExerciseRegistry) (name : String) :
    (r.getExercise name).1 = r ∧
    (∀ p, r.exercises.find? (fun q => q.1 = name) = some p →
      (r.getExercise name).2 = Except.ok p.2) ∧
    (r.exercises.find? (fun q => q.1 = name) = none →
      ∃ msg, (r.getExercise name).2 = Except.error msg) := by
  unfold ExerciseRegistry.getExercise
  refine ⟨?_, ?_, ?_⟩
  · cases h : r.exercises.find? (fun q => q.1 = name) <;> simp [h]
  · intro p hp
    rw [hp]
  · intro hn
    rw [hn]
    exact ⟨"Unknown exercise " ++ name, rfl⟩

/-- Witness for C9: on a one-entry registry, the present key is found and an
absent key errors, with the registry unchanged. -/
theorem c9_registry_lookup_witness :
    (reg9.getExercise "squat").1 = reg9 ∧
    (reg9.getExercise "squat").2 = Except.ok def6 ∧
    ∃ msg, (reg9.getExercise "bench").2 = Except.error msg := by
  have h1 := c9_registry_lookup reg9 "squat"
  have h2 := c9_registry_lookup reg9 "bench"
  refine ⟨h1.1, h1.2.1 ("squat", def6) ?_, h2.2.2 ?_⟩
  · simp [reg9]
  · simp [reg9]

theorem processFormCheck_cases (exName : String) (track : Nat) (kps : List Keypoint)
    (sid : String) (rep : Nat) (tsn : Int) (now : ℝ) (states : AlertStates)
    (ja : List (String × ℝ)) (fc : FormCheck ℝ) :
    (∀ k2, k2 ≠ fc.alert_key →
      (processFormCheck exName track kps sid rep tsn now states ja fc).1 k2 = states k2) ∧
    ((((processFormCheck exName track kps sid rep tsn now states ja fc).1
          fc.alert_key).last_fired_at = (states fc.alert_key).last_fired_at ∧
      (processFormCheck exName track kps sid rep tsn now states ja fc).2.2 = none) ∨
     (∃ ev, (processFormCheck exName track kps sid rep tsn now states ja fc).2.2 = some ev ∧
        ev.alert_key = fc.alert_key ∧
        now - (states fc.alert_key).last_fired_at ≥ COOLDOWN_SECONDS ∧
        ((processFormCheck exName track kps sid rep tsn now states ja fc).1
          fc.alert_key).last_fired_at = now)) := by
  classical
  unfold processFormCheck
  split
  · constructor
    · intro k2 hk2
      simp [updAlert, hk2]
    · exact Or.inl ⟨by simp [updAlert], rfl⟩
  · dsimp only
    split
    · split
      · constructor
        · intro k2 hk2
          simp [updAlert, hk2]
        · exact Or.inl ⟨by simp [updAlert], rfl⟩
      · split
        · constructor
          · intro k2 hk2
            simp [updAlert, hk2]
          · exact Or.inl ⟨by simp [updAlert], rfl⟩
        · constructor
          · intro k2 hk2
            simp [updAlert, hk2]
          · refine Or.inr ⟨_, rfl, rfl, ?_, by simp [updAlert]⟩
            next hcool =>
              exact le_of_not_lt (fun hlt => hcool hlt)
    · constructor
      · intro k2 hk2
        simp [updAlert, hk2]
      · exact Or.inl ⟨by simp [updAlert], rfl⟩

theorem checkChecks_key_cases (exName : String) (track : Nat) (kps : List Keypoint)
    (sid : String) (rep : Nat) (tsn : Int) (now : ℝ) (k : String) :
    ∀ (fcs : List (FormCheck ℝ)) (states : AlertStates) (ja : List (String × ℝ)),
      (((checkChecks exName track kps sid rep tsn now states ja fcs).2.2.filter
          (fun e => e.alert_key = k)) = [] ∧
        ((checkChecks exName track kps sid rep tsn now states ja fcs).1 k).last_fired_at =
          (states k).last_fired_at) ∨
      ((∃ ev, ((checkChecks exName track kps sid rep tsn now states ja fcs).2.2.filter
          (fun e => e.alert_key = k)) = [ev]) ∧
        now - (states k).last_fired_at ≥ COOLDOWN_SECONDS ∧
        ((checkChecks exName track kps sid rep tsn now states ja fcs).1 k).last_fired_at = now)
  | [], states, ja => Or.inl ⟨rfl, rfl⟩
  | fc :: rest, states, ja => by
      classical
      have hp := processFormCheck_cases exName track kps sid rep tsn now states ja fc
      simp only [checkChecks]
      set r := processFormCheck exName track kps sid rep tsn now states ja fc with hr
      have ih := checkChecks_key_cases exName track kps sid rep tsn now k rest r.1 r.2.1
      by_cases hk : fc.alert_key = k
      · subst hk
        rcases hp.2 with ⟨hlast, hev⟩ | ⟨ev, hev, hevk, hcool, hlast⟩
        · rw [hev]
          simp only [Option.toList_none, List.nil_append]
          rcases ih with ⟨hf, hl⟩ | ⟨hone, hc, hl⟩
          · exact Or.inl ⟨hf, by rw [hl, hlast]⟩
          · exact Or.inr ⟨hone, by rw [hlast] at hc; exact hc, hl⟩
        · rw [hev]
          simp only [Option.toList_some, List.singleton_append]
          rcases ih with ⟨hf, hl⟩ | ⟨⟨ev2, hone⟩, hc, _⟩
          · refine Or.inr ⟨⟨ev, ?_⟩, hcool, by rw [hl, hlast]⟩
            rw [List.filter_cons_of_pos (by simp [hevk]), hf]
          · exfalso
            rw [hlast] at hc
            simp only [sub_self] at hc
            have hpos : (0 : ℝ) < COOLDOWN_SECONDS := by norm_num [COOLDOWN_SECONDS]
            linarith
      · have hst : r.1 k = states k := hp.1 k (fun h => hk h.symm)
        have hfilter : r.2.2.toList.filter (fun e => decide (e.alert_key = k)) = [] := by
          rcases hp.2 with ⟨_, hev⟩ | ⟨ev, hev, hevk, _, _⟩
          · rw [hev]; rfl
          · rw [hev]
            simp only [Option.toList_some]
            rw [List.filter_cons_of_neg (by simp [hevk, hk])]
            rfl
        rw [List.filter_append, hfilter, List.nil_append]
        rcases ih with ⟨hf, hl⟩ | ⟨hone, hc, hl⟩
        · exact Or.inl ⟨hf, by rw [hl, hst]⟩
        · exact Or.inr ⟨hone, by rw [hst] at hc; exact hc, hl⟩

theorem check_key_cases (d : ExerciseDefinition ℝ) (track : Nat) (kps : List Keypoint)
    (sid : String) (rep : Nat) (tsn : Int) (now : ℝ) (states : AlertStates) (k : String) :
    (((FormAnalyzer.check d track kps sid rep tsn now states).2.filter
        (fun e => e.alert_key = k)) = [] ∧
      ((FormAnalyzer.check d track kps sid rep tsn now states).1 k).last_fired_at =
        (states k).last_fired_at) ∨
    ((∃ ev, ((FormAnalyzer.check d track kps sid rep tsn now states).2.filter
        (fun e => e.alert_key = k)) = [ev]) ∧
      now - (states k).last_fired_at ≥ COOLDOWN_SECONDS ∧
      ((FormAnalyzer.check d track kps sid rep tsn now states).1 k).last_fired_at = now) :=
  checkChecks_key_cases d.name track kps sid rep tsn now k d.form_checks states []

theorem check_last_mono (d : ExerciseDefinition ℝ) (track : Nat) (kps : List Keypoint)
    (sid : String) (rep : Nat) (tsn : Int) (now : ℝ) (states : AlertStates) (k : String) :
    (states k).last_fired_at ≤
      ((FormAnalyzer.check d track kps sid rep tsn now states).1 k).last_fired_at := by
  rcases check_key_cases d track kps sid rep tsn now states k with ⟨_, hl⟩ | ⟨_, hc, hl⟩
  · exact le_of_eq hl.symm
  · have h10 : (0 : ℝ) ≤ COOLDOWN_SECONDS := by norm_num [COOLDOWN_SECONDS]
    rw [hl]
    linarith

theorem runFormChecks_alert_time (d : ExerciseDefinition ℝ) (track : Nat) (sid : String)
    (rep : Nat) (k : String) :
    ∀ (calls : List CheckCall) (states : AlertStates) (t : ℝ) (ev : FormAlertEvent),
      (t, ev) ∈ (runFormChecks d track sid rep states calls).2 → ev.alert_key = k →
      t - (states k).last_fired_at ≥ COOLDOWN_SECONDS
  | [], states, t, ev => by
      intro hmem _
      simp [runFormChecks] at hmem
  | c :: cs, states, t, ev => by
      intro hmem hk
      simp only [runFormChecks, List.mem_append, List.mem_map] at hmem
      rcases hmem with ⟨e0, he0, heq⟩ | htail
      · simp only [Prod.mk.injEq] at heq
        obtain ⟨ht, hev⟩ := heq
        subst ht
        subst hev
        rcases check_key_cases d track c.keypoints sid rep c.timestamp_ns c.now states k with
          ⟨hf, _⟩ | ⟨_, hc, _⟩
        · exfalso
          have hin : e0 ∈ (FormAnalyzer.check d track c.keypoints sid rep c.timestamp_ns
              c.now states).2.filter (fun e => e.alert_key = k) :=
            List.mem_filter.mpr ⟨he0, by simp [hk]⟩
          rw [hf] at hin
          exact absurd hin (List.not_mem_nil e0)
        · exact hc
      · have ih := runFormChecks_alert_time d track sid rep k cs
          (FormAnalyzer.check d track c.keypoints sid rep c.timestamp_ns c.now states).1
          t ev htail hk
        have hmono := check_last_mono d track c.keypoints sid rep c.timestamp_ns c.now states k
        have := ih
        linarith

/-- Claim C7: for every `(track, alert_key)` pair, any two alerts emitted for
that pair across a sequence of `check()` calls lie at least 10 seconds of
monotonic time apart (at most one alert per 10-second window). Proved for
every input sequence — in particular for a joint angle that is constantly out
of range — with no assumption on the clock values: the cooldown alone
enforces the spacing. -/
theorem c7_cooldown_spacing (d : ExerciseDefinition ℝ) (track : Nat) (sid : String)
    (rep : Nat) (k : String) :
    ∀ (calls : List CheckCall) (states : AlertStates),
      ((runFormChecks d track sid rep states calls).2.filter
        (fun p => p.2.alert_key = k)).Pairwise
        (fun p q => q.1 - p.1 ≥ COOLDOWN_SECONDS)
  | [], _ => List.Pairwise.nil
  | c :: cs, states => by
      classical
      simp only [runFormChecks, List.filter_append]
      rw [List.pairwise_append]
      have hmapfilter :
          ((FormAnalyzer.check d track c.keypoints sid rep c.timestamp_ns c.now states).2.map
            (fun e => (c.now, e))).filter (fun p => p.2.alert_key = k) =
          ((FormAnalyzer.check d track c.keypoints sid rep c.timestamp_ns c.now
            states).2.filter (fun e => e.alert_key = k)).map (fun e => (c.now, e)) := by
        rw [List.filter_map]
        rfl
      refine ⟨?_, c7_cooldown_spacing d track sid rep k cs _, ?_⟩
      · rw [hmapfilter]
        rcases check_key_cases d track c.keypoints sid rep c.timestamp_ns c.now states k with
          ⟨hf, _⟩ | ⟨⟨ev, hone⟩, _, _⟩
        · rw [hf]
          exact List.Pairwise.nil
        · rw [hone]
          simp
      · intro p hp q hq
        rw [hmapfilter] at hp
        simp only [List.mem_map] at hp
        obtain ⟨e0, he0, heq⟩ := hp
        have hpt : p.1 = c.now := by rw [← heq]
        have hq2 : q ∈ (runFormChecks d track sid rep
            (FormAnalyzer.check d track c.keypoints sid rep c.timestamp_ns c.now states).1
            cs).2 ∧ q.2.alert_key = k := by
          have := List.mem_filter.mp hq
          exact ⟨this.1, by simpa using this.2⟩
        rcases check_key_cases d track c.keypoints sid rep c.timestamp_ns c.now states k with
          ⟨hf, _⟩ | ⟨_, _, hl⟩
        · exfalso
          rw [hf] at he0
          exact absurd he0 (List.not_mem_nil e0)
        · have ht := runFormChecks_alert_time d track sid rep k cs
            (FormAnalyzer.check d track c.keypoints sid rep c.timestamp_ns c.now states).1
            q.1 q.2 (by simpa using hq2.1) hq2.2
          rw [hl] at ht
          rw [hpt]
          exact ht

theorem computeAngle_zero_deg : computeAngle (1, 0) (0, 0) (2, 0) = 0 := by
  unfold computeAngle
  dsimp only
  have e1 : ((1 : ℝ) - 0) ^ 2 + ((0 : ℝ) - 0) ^ 2 = 1 := by norm_num
  have e2 : ((2 : ℝ) - 0) ^ 2 + ((0 : ℝ) - 0) ^ 2 = 2 ^ 2 := by norm_num
  rw [e1, e2, Real.sqrt_one, Real.sqrt_sq (by norm_num : (0:ℝ) ≤ 2)]
  rw [if_neg (by norm_num)]
  have e3 : ((1 : ℝ) - 0) * (2 - 0) + ((0 : ℝ) - 0) * (0 - 0) = 2 := by ring
  rw [e3]
  norm_num

theorem computeAngle_ninety_deg : computeAngle (0, 1) (0, 0) (1, 0) = 90 := by
  unfold computeAngle
  dsimp only
  have e1 : ((0 : ℝ) - 0) ^ 2 + ((1 : ℝ) - 0) ^ 2 = 1 := by norm_num
  have e2 : ((1 : ℝ) - 0) ^ 2 + ((0 : ℝ) - 0) ^ 2 = 1 := by norm_num
  rw [e1, e2, Real.sqrt_one]
  rw [if_neg (by norm_num)]
  have e3 : ((0 : ℝ) - 0) * (1 - 0) + ((1 : ℝ) - 0) * (0 - 0) = 0 := by ring
  rw [e3]
  norm_num
  have hpi := Real.pi_ne_zero
  field_simp
  ring

theorem computeAngle_fifty_deg :
    computeAngle (1, 0) (0, 0) (Real.cos theta50, Real.sin theta50) = 50 := by
  unfold computeAngle
  dsimp only
  have e1 : ((1 : ℝ) - 0) ^ 2 + ((0 : ℝ) - 0) ^ 2 = 1 := by norm_num
  have e2 : (Real.cos theta50 - 0) ^ 2 + (Real.sin theta50 - 0) ^ 2 = 1 := by
    simp only [sub_zero]
    exact Real.cos_sq_add_sin_sq theta50
  rw [e1, e2, Real.sqrt_one]
  rw [if_neg (by norm_num)]
  have e3 : ((1 : ℝ) - 0) * (Real.cos theta50 - 0) + ((0 : ℝ) - 0) * (Real.sin theta50 - 0) =
      Real.cos theta50 := by ring
  rw [e3]
  norm_num
  rw [min_eq_right (Real.cos_le_one theta50), max_eq_right (Real.neg_one_le_cos theta50)]
  have hpi := Real.pi_pos
  have h0 : 0 ≤ theta50 := by unfold theta50; positivity
  have h1 : theta50 ≤ Real.pi := by unfold theta50; linarith
  rw [Real.arccos_cos h0 h1]
  unfold theta50
  field_simp
  ring

theorem getJointAngle_kps6_012 : getJointAngle kps6 0 1 2 = some 0 := by
  unfold getJointAngle
  rw [if_neg (by norm_num [kps6])]
  dsimp only
  have g0 : kps6.getD 0 dummyKeypoint = kptVis 1 0 := rfl
  have g1 : kps6.getD 1 dummyKeypoint = kptVis 0 0 := rfl
  have g2 : kps6.getD 2 dummyKeypoint = kptVis 2 0 := rfl
  rw [g0, g1, g2]
  rw [if_neg (by norm_num [kptVis, VIS_THRESHOLD])]
  show some (computeAngle (1, 0) (0, 0) (2, 0)) = some 0
  rw [computeAngle_zero_deg]

theorem getJointAngle_kps6_345 : getJointAngle kps6 3 4 5 = some 90 := by
  unfold getJointAngle
  rw [if_neg (by norm_num [kps6])]
  dsimp only
  have g0 : kps6.getD 3 dummyKeypoint = kptVis 0 1 := rfl
  have g1 : kps6.getD 4 dummyKeypoint = kptVis 0 0 := rfl
  have g2 : kps6.getD 5 dummyKeypoint = kptVis 1 0 := rfl
  rw [g0, g1, g2]
  rw [if_neg (by norm_num [kptVis, VIS_THRESHOLD])]
  show some (computeAngle (0, 1) (0, 0) (1, 0)) = some 90
  rw [computeAngle_ninety_deg]

theorem getJointAngle_kps50 : getJointAngle kps50 0 1 2 = some 50 := by
  unfold getJointAngle
  rw [if_neg (by norm_num [kps50])]
  dsimp only
  have g0 : kps50.getD 0 dummyKeypoint = kptVis 1 0 := rfl
  have g1 : kps50.getD 1 dummyKeypoint = kptVis 0 0 := rfl
  have g2 : kps50.getD 2 dummyKeypoint = kptVis (Real.cos theta50) (Real.sin theta50) := rfl
  rw [g0, g1, g2]
  rw [if_neg (by norm_num [kptVis, VIS_THRESHOLD])]
  show some (computeAngle (1, 0) (0, 0) (Real.cos theta50, Real.sin theta50)) = some 50
  rw [computeAngle_fifty_deg]

theorem check6_eval :
    (FormAnalyzer.check def6 0 kps6 "set0" 0 0 100 states6).2 = [ev6] := by
  have hk1 : jointKey 0 1 2 = "0-1-2" := rfl
  have hk2 : jointKey 3 4 5 = "3-4-5" := rfl
  norm_num [FormAnalyzer.check, checkChecks, processFormCheck, def6, chk1, chk2,
    getJointAngle_kps6_012, getJointAngle_kps6_345, updAlert, states6, AlertState.init,
    DEBOUNCE_FRAMES, COOLDOWN_SECONDS, dictInsert, ev6, round1, hk1, hk2]

theorem observedAngles6_eval :
    observedAngles kps6 [] def6.form_checks = [(jointKey 0 1 2, 0), (jointKey 3 4 5, 90)] := by
  have hk1 : jointKey 0 1 2 = "0-1-2" := rfl
  have hk2 : jointKey 3 4 5 = "3-4-5" := rfl
  norm_num [observedAngles, def6, chk1, chk2, getJointAngle_kps6_012,
    getJointAngle_kps6_345, dictInsert, hk1, hk2]
  decide

/-- Counterexample for C6: with two form checks, the first check fires while
the second check's angle (90 degrees at joints 3-4-5) is defined and
observed, yet the emitted alert's `joint_angles` contain only the first
check's angle — the accumulated dict is snapshot at the firing check, so
angles of later checks are missing. -/
theorem c6_counterexample :
    ((FormAnalyzer.check def6 0 kps6 "set0" 0 0 100 states6).2.map
      (fun e => e.joint_angles)) = [[(jointKey 0 1 2, 0)]] ∧
    observedAngles kps6 [] def6.form_checks =
      [(jointKey 0 1 2, 0), (jointKey 3 4 5, 90)] ∧
    getJointAngle kps6 3 4 5 = some 90 := by
  refine ⟨?_, observedAngles6_eval, getJointAngle_kps6_345⟩
  rw [check6_eval]
  rfl

theorem processFormCheck_ja (exName : String) (track : Nat) (kps : List Keypoint)
    (sid : String) (rep : Nat) (tsn : Int) (now : ℝ) (states : AlertStates)
    (ja : List (String × ℝ)) (fc : FormCheck ℝ) :
    (processFormCheck exName track kps sid rep tsn now states ja fc).2.1 =
      observedAngles kps ja [fc] ∧
    (∀ ev, (processFormCheck exName track kps sid rep tsn now states ja fc).2.2 = some ev →
      ev.alert_key = fc.alert_key ∧
      ev.joint_angles = (processFormCheck exName track kps sid rep tsn now states ja
        fc).2.1.map (fun p => (p.1, round1 p.2))) := by
  classical
  unfold processFormCheck observedAngles
  split
  · exact ⟨rfl, fun ev hev => absurd hev (by simp)⟩
  · dsimp only
    split
    · split
      · exact ⟨rfl, fun ev hev => absurd hev (by simp)⟩
      · split
        · exact ⟨rfl, fun ev hev => absurd hev (by simp)⟩
        · refine ⟨rfl, fun ev hev => ?_⟩
          simp only [Option.some.injEq] at hev
          subst hev
          exact ⟨rfl, rfl⟩
    · exact ⟨rfl, fun ev hev => absurd hev (by simp)⟩

theorem observedAngles_cons (kps : List Keypoint) (ja : List (String × ℝ))
    (fc : FormCheck ℝ) (l : List (FormCheck ℝ)) :
    observedAngles kps ja (fc :: l) = observedAngles kps (observedAngles kps ja [fc]) l := by
  cases hg : getJointAngle kps fc.joint.1 fc.joint.2.1 fc.joint.2.2 <;>
    simp [observedAngles, hg]

theorem checkChecks_joint_angles (exName : String) (track : Nat) (kps : List Keypoint)
    (sid : String) (rep : Nat) (tsn : Int) (now : ℝ) :
    ∀ (fcs : List (FormCheck ℝ)) (states : AlertStates) (ja : List (String × ℝ)),
      ∀ ev ∈ (checkChecks exName track kps sid rep tsn now states ja fcs).2.2,
        ∃ n, n < fcs.length ∧ ev.alert_key = (fcs.getD n dummyFormCheck).alert_key ∧
          ev.joint_angles = (observedAngles kps ja (fcs.take (n + 1))).map
            (fun p => (p.1, round1 p.2))
  | [], states, ja => by
      intro ev hev
      simp [checkChecks] at hev
  | fc :: rest, states, ja => by
      intro ev hev
      simp only [checkChecks] at hev
      set r := processFormCheck exName track kps sid rep tsn now states ja fc with hr
      have hja := processFormCheck_ja exName track kps sid rep tsn now states ja fc
      rw [List.mem_append] at hev
      rcases hev with hhead | htail
      · have hsome : r.2.2 = some ev := by
          cases h2 : r.2.2 with
          | none =>
              rw [h2] at hhead
              simp at hhead
          | some e2 =>
              rw [h2] at hhead
              simp at hhead
              rw [hhead]
        obtain ⟨hkey, hjaev⟩ := hja.2 ev hsome
        refine ⟨0, by simp, by simpa using hkey, ?_⟩
        simp only [List.take_succ_cons, List.take_zero]
        rw [← hja.1]
        exact hjaev
      · obtain ⟨n, hn, hkey, hjaev⟩ := checkChecks_joint_angles exName track kps sid rep tsn
          now rest r.1 r.2.1 ev htail
        refine ⟨n + 1, by simpa using Nat.succ_lt_succ hn, by simpa using hkey, ?_⟩
        simp only [List.take_succ_cons]
        rw [observedAngles_cons, ← hja.1]
        exact hjaev

/-- Claim C6 (amended): every alert emitted by `FormAnalyzer.check` carries,
in `joint_angles`, the defined joint angles of the form checks up to and
including the check that fired (keyed `"a-b-c"`, rounded to 0.1 degree);
angles of checks after the firing one are not included, because the
accumulated dict is snapshot when the alert is constructed. -/
theorem c6_alert_joint_angles (d : ExerciseDefinition ℝ) (track : Nat)
    (kps : List Keypoint) (sid : String) (rep : Nat) (tsn : Int) (now : ℝ)
    (states : AlertStates) :
    ∀ ev ∈ (FormAnalyzer.check d track kps sid rep tsn now states).2,
      ∃ n, n < d.form_checks.length ∧
        ev.alert_key = (d.form_checks.getD n dummyFormCheck).alert_key ∧
        ev.joint_angles = (observedAngles kps [] (d.form_checks.take (n + 1))).map
          (fun p => (p.1, round1 p.2)) :=
  fun ev hev =>
    checkChecks_joint_angles d.name track kps sid rep tsn now d.form_checks states [] ev hev

/-- Witness for the amended C6 at the concrete two-check run. -/
theorem c6_alert_joint_angles_witness :
    ev6 ∈ (FormAnalyzer.check def6 0 kps6 "set0" 0 0 100 states6).2 ∧
    ∃ n, n < def6.form_checks.length ∧
      ev6.alert_key = (def6.form_checks.getD n dummyFormCheck).alert_key ∧
      ev6.joint_angles = (observedAngles kps6 [] (def6.form_checks.take (n + 1))).map
        (fun p => (p.1, round1 p.2)) := by
  have hmem : ev6 ∈ (FormAnalyzer.check def6 0 kps6 "set0" 0 0 100 states6).2 := by
    rw [check6_eval]
    exact List.mem_singleton.mpr rfl
  exact ⟨hmem, c6_alert_joint_angles def6 0 kps6 "set0" 0 0 100 states6 ev6 hmem⟩

/-- Counterexample for C8: at monotonic times that are all 0, five calls with
a 50-degree angle against the allowed range `[80, 180]` produce no alert at
all — a fresh `AlertState` has `last_fired_at = 0.0`, so the 10-second
cooldown reckoned against the clock origin suppresses the alert. -/
theorem c8_counterexample :
    (runFormChecks def50 0 "s" 0 statesInit
      [call50 0, call50 0, call50 0, call50 0, call50 0]).2 = [] ∧
    getJointAngle kps50 0 1 2 = some 50 ∧
    ¬((80 : ℝ) ≤ 50 ∧ (50 : ℝ) ≤ 180) := by
  refine ⟨?_, getJointAngle_kps50, by norm_num⟩
  norm_num [runFormChecks, FormAnalyzer.check, checkChecks, processFormCheck,
    getJointAngle_kps50, updAlert, statesInit, AlertState.init, call50, chk50, def50,
    DEBOUNCE_FRAMES, COOLDOWN_SECONDS, dictInsert]

/-- Claim C8 (amended): from fresh per-(track, alert_key) state with a
50-degree check angle against `[80, 180]`, two `check()` calls yield no alert
for any monotonic times; five calls yield at least one alert provided some
call among the third to fifth occurs at monotonic time at least 10 (the
cooldown is reckoned against `last_fired_at = 0.0` of the fresh state). -/
theorem c8_debounce_and_alert (t1 t2 t3 t4 t5 : ℝ)
    (hlate : 10 ≤ t3 ∨ 10 ≤ t4 ∨ 10 ≤ t5) :
    (runFormChecks def50 0 "s" 0 statesInit [call50 t1, call50 t2]).2 = [] ∧
    (runFormChecks def50 0 "s" 0 statesInit
      [call50 t1, call50 t2, call50 t3, call50 t4, call50 t5]).2 ≠ [] := by
  constructor
  · norm_num [runFormChecks, FormAnalyzer.check, checkChecks, processFormCheck,
      getJointAngle_kps50, updAlert, statesInit, AlertState.init, call50, chk50, def50,
      DEBOUNCE_FRAMES, COOLDOWN_SECONDS, dictInsert]
  · by_cases h3 : 10 ≤ t3
    · have f3 : ¬(t3 < 10) := not_lt.mpr h3
      intro h
      norm_num [runFormChecks, FormAnalyzer.check, checkChecks, processFormCheck,
        getJointAngle_kps50, updAlert, statesInit, AlertState.init, call50, chk50, def50,
        DEBOUNCE_FRAMES, COOLDOWN_SECONDS, dictInsert, f3] at h
      exact absurd h (List.cons_ne_nil _ _)
    · have f3 : t3 < 10 := lt_of_not_le h3
      by_cases h4 : 10 ≤ t4
      · have f4 : ¬(t4 < 10) := not_lt.mpr h4
        intro h
        norm_num [runFormChecks, FormAnalyzer.check, checkChecks, processFormCheck,
          getJointAngle_kps50, updAlert, statesInit, AlertState.init, call50, chk50, def50,
          DEBOUNCE_FRAMES, COOLDOWN_SECONDS, dictInsert, f3, f4] at h
        exact absurd h (List.cons_ne_nil _ _)
      · have f4 : t4 < 10 := lt_of_not_le h4
        have h5 : 10 ≤ t5 := by
          rcases hlate with h | h | h
          · exact absurd h h3
          · exact absurd h h4
          · exact h
        have f5 : ¬(t5 < 10) := not_lt.mpr h5
        intro h
        norm_num [runFormChecks, FormAnalyzer.check, checkChecks, processFormCheck,
          getJointAngle_kps50, updAlert, statesInit, AlertState.init, call50, chk50, def50,
          DEBOUNCE_FRAMES, COOLDOWN_SECONDS, dictInsert, f3, f4, f5] at h

/-- Witness for the amended C8 at times constantly 10. -/
theorem c8_debounce_and_alert_witness :
    ((10 : ℝ) ≤ 10 ∨ (10 : ℝ) ≤ 10 ∨ (10 : ℝ) ≤ 10) ∧
    (runFormChecks def50 0 "s" 0 statesInit [call50 10, call50 10]).2 = [] ∧
    (runFormChecks def50 0 "s" 0 statesInit
      [call50 10, call50 10, call50 10, call50 10, call50 10]).2 ≠ [] := by
  have h := c8_debounce_and_alert 10 10 10 10 10 (Or.inl (by norm_num))
  exact ⟨Or.inl (by norm_num), h.1, h.2⟩

theorem vals5_length : vals5.length = 15 := by
  simp [vals5]

theorem vals5_mean : listMean vals5 = 207 / 2 := by
  unfold listMean
  rw [vals5_length]
  simp [vals5, List.sum_append, List.sum_replicate, nsmul_eq_mul]
  norm_num

theorem vals5_devsum :
    (vals5.map (fun x => (x - listMean vals5) ^ 2)).sum = 735 / 2 := by
  simp only [vals5_mean]
  simp [vals5, List.map_append, List.map_replicate, List.sum_append, List.sum_replicate,
    nsmul_eq_mul]
  norm_num

theorem vals5_npStd : npStd vals5 = Real.sqrt (49 / 2) := by
  unfold npStd
  rw [vals5_devsum, vals5_length]
  norm_num

theorem vals5_sampleStd : sampleStd vals5 = Real.sqrt (105 / 4) := by
  unfold sampleStd
  rw [vals5_devsum, vals5_length]
  norm_num

theorem vals5_npStd_lt : npStd vals5 < 5 := by
  rw [vals5_npStd, Real.sqrt_lt' (by norm_num : (0:ℝ) < 5)]
  norm_num

theorem vals5_sampleStd_not_lt : ¬(sampleStd vals5 < 5) := by
  rw [vals5_sampleStd, Real.sqrt_lt' (by norm_num : (0:ℝ) < 5)]
  norm_num

theorem vals5_sampleStd_pos : 0 < sampleStd vals5 := by
  rw [vals5_sampleStd]
  exact Real.sqrt_pos.mpr (by norm_num)

theorem round2_one : round2 1 = 1 := by
  unfold round2
  rw [mul_one, show ((100:ℝ)) = ((100:ℤ):ℝ) by norm_num, round_intCast]
  norm_num

/-- Counterexample for C5: on a FIFO of 15 samples (five of 110.5, ten of
100) the population variance is 24.5 but the sample variance is 26.25, so
`np.std` (population, as the code computes) falls below the 5.0 threshold
while the sample standard deviation of the claim exceeds it: the classifier
returns `("unknown", 0.0)` where the claim as stated predicts
`("squat", 1.0)`. -/
theorem c5_counterexample :
    Classifier.classify npStd hist5 = ("unknown", 0) ∧
    specClassify sampleStd hist5 = ("squat", 1) := by
  have hne1 : ¬("squat" = "push_up") := by decide
  have hne2 : ¬("squat" = "bicep_curl") := by decide
  constructor
  · norm_num [Classifier.classify, hist5, vals5_length, WINDOW, MIN_VARIANCE, argmaxFirst,
      vals5_npStd_lt, hne1, hne2]
  · have hdiv : sampleStd vals5 / sampleStd vals5 = 1 := div_self (ne_of_gt vals5_sampleStd_pos)
    norm_num [specClassify, hist5, vals5_length, argmaxFirst, vals5_sampleStd_not_lt,
      hdiv, round2_one, hne1, hne2]

theorem npStd_nonneg (xs : List ℝ) : 0 ≤ npStd xs := Real.sqrt_nonneg _

theorem foldl_argmax_mem :
    ∀ (ps : List (String × ℝ)) (b : String × ℝ),
      ps.foldl (fun best q => if q.2 > best.2 then q else best) b = b ∨
      ps.foldl (fun best q => if q.2 > best.2 then q else best) b ∈ ps
  | [], b => Or.inl rfl
  | q :: ps, b => by
      classical
      simp only [List.foldl_cons]
      rcases foldl_argmax_mem ps (if q.2 > b.2 then q else b) with h | h
      · rw [h]
        split
        · exact Or.inr (List.mem_cons_self q ps)
        · exact Or.inl rfl
      · exact Or.inr (List.mem_cons_of_mem q h)

theorem argmaxFirst_mem (l : List (String × ℝ)) (h : l ≠ []) : argmaxFirst l ∈ l := by
  cases l with
  | nil => exact absurd rfl h
  | cons p ps =>
      unfold argmaxFirst
      dsimp only
      rcases foldl_argmax_mem ps p with h2 | h2
      · rw [h2]
        exact List.mem_cons_self p ps
      · exact List.mem_cons_of_mem p h2

theorem dictInsert_ne_nil (m : List (String × ℝ)) (k : String) (v : ℝ) :
    dictInsert m k v ≠ [] := by
  classical
  unfold dictInsert
  split
  · next hany =>
      intro hemp
      rw [List.map_eq_nil_iff] at hemp
      subst hemp
      simp at hany
  · intro hemp
    simp at hemp

theorem dictInsert_nonneg (m : List (String × ℝ)) (k : String) (v : ℝ)
    (hm : ∀ p ∈ m, 0 ≤ p.2) (hv : 0 ≤ v) : ∀ p ∈ dictInsert m k v, 0 ≤ p.2 := by
  classical
  unfold dictInsert
  split
  · intro p hp
    rw [List.mem_map] at hp
    obtain ⟨q, hq, hpq⟩ := hp
    subst hpq
    split
    · exact hv
    · exact hm q hq
  · intro p hp
    rw [List.mem_append] at hp
    rcases hp with h | h
    · exact hm p h
    · simp only [List.mem_singleton] at h
      subst h
      exact hv

theorem disambiguateElbow_nonneg (vs : List (String × ℝ)) (history : ClassifierHistory)
    (hvs : ∀ p ∈ vs, 0 ≤ p.2) : ∀ p ∈ disambiguateElbow vs history, 0 ≤ p.2 := by
  classical
  unfold disambiguateElbow
  dsimp only
  split <;> (try split) <;> (try split) <;>
    first
      | exact dictInsert_nonneg vs "bicep_curl" 0 hvs le_rfl
      | exact dictInsert_nonneg vs "push_up" 0 hvs le_rfl
      | exact hvs

theorem disambiguateElbow_ne_nil (vs : List (String × ℝ)) (history : ClassifierHistory)
    (hne : vs ≠ []) : disambiguateElbow vs history ≠ [] := by
  classical
  unfold disambiguateElbow
  dsimp only
  split <;> (try split) <;> (try split) <;>
    first
      | exact dictInsert_ne_nil vs "bicep_curl" 0
      | exact dictInsert_ne_nil vs "push_up" 0
      | exact hne

theorem classify_total_guard (w : List (String × ℝ)) (hne : w ≠ [])
    (hnn : ∀ p ∈ w, 0 ≤ p.2) :
    (if (argmaxFirst w).2 < 5 then (("unknown", 0) : String × ℝ)
     else ((argmaxFirst w).1, round2 (min 1 ((argmaxFirst w).2 /
       if (w.map (fun p => p.2)).sum = 0 then 1 else (w.map (fun p => p.2)).sum)))) =
    (if (argmaxFirst w).2 < 5 then (("unknown", 0) : String × ℝ)
     else ((argmaxFirst w).1, round2 (min 1 ((argmaxFirst w).2 /
       (w.map (fun p => p.2)).sum)))) := by
  classical
  by_cases hb : (argmaxFirst w).2 < 5
  · rw [if_pos hb, if_pos hb]
  · rw [if_neg hb, if_neg hb]
    have hmem : (argmaxFirst w).2 ∈ w.map (fun p => p.2) :=
      List.mem_map.mpr ⟨argmaxFirst w, argmaxFirst_mem w hne, rfl⟩
    have hnn2 : ∀ x ∈ w.map (fun p => p.2), 0 ≤ x := by
      intro x hx
      rw [List.mem_map] at hx
      obtain ⟨p, hp, he⟩ := hx
      subst he
      exact hnn p hp
    have hle : (argmaxFirst w).2 ≤ (w.map (fun p => p.2)).sum :=
      List.single_le_sum hnn2 _ hmem
    have h5 : (5 : ℝ) ≤ (argmaxFirst w).2 := le_of_not_lt hb
    have hsum : (w.map (fun p => p.2)).sum ≠ 0 := by
      have : (0 : ℝ) < (w.map (fun p => p.2)).sum := by linarith
      exact ne_of_gt this
    rw [if_neg hsum]

/-- Claim C5 (amended): the classifier computes, for each exercise with at
least 15 samples, the population standard deviation (`np.std`, `ddof = 0`) —
not the Bessel-corrected sample standard deviation — and otherwise behaves
exactly as the specification sentence describes: after any disambiguation it
picks the exercise with the largest std-dev, returns `("unknown", 0.0)` below
`5.0`, and otherwise the name with confidence `min(1, best / sum of
std-devs)` rounded to 2 decimal places. -/
theorem c5_classify_population_spec (history : ClassifierHistory) :
    Classifier.classify npStd history = specClassify npStd history := by
  classical
  unfold Classifier.classify specClassify
  rw [show (fun p : String × List ℝ => decide (WINDOW / 2 ≤ p.2.length)) =
      (fun p : String × List ℝ => decide (15 ≤ p.2.length)) from rfl]
  rw [show MIN_VARIANCE = (5 : ℝ) from rfl]
  dsimp only
  set v := (history.filter (fun p : String × List ℝ => decide (15 ≤ p.2.length))).map
    (fun p => (p.1, npStd p.2)) with hv
  by_cases hempty : v = []
  · rw [hempty]
    norm_num [argmaxFirst]
  · have hbase : ∀ p ∈ v, 0 ≤ p.2 := by
      intro p hp
      rw [hv] at hp
      rw [List.mem_map] at hp
      obtain ⟨q, hq, he⟩ := hp
      subst he
      exact npStd_nonneg q.2
    rw [if_neg (by simp [hempty])]
    refine classify_total_guard _ ?_ ?_
    · split
      · exact disambiguateElbow_ne_nil v history hempty
      · exact hempty
    · split
      · exact disambiguateElbow_nonneg v history hbase
      · exact hbase
